import Mathlib

/-!
Verification development for the yes123-crawler repository
(`src/upload_duplicate_104_to_mysql.py`).

The Python program is shallowly embedded:
* Python/JSON values are modelled by `PyVal`; `dict.get` becomes `pyGet`,
  which faults with `AttributeError` on non-dict receivers, exactly as
  Python does.
* `str.split` with a non-empty single-character separator is modelled by
  `splitChars` / `pySplit` (Python's split always returns a non-empty
  list; `"".split(c) = [""]`).
* Fallible Python expressions return `Except PyExc _`; an uncaught
  exception is an `Except.error`.
* The HTTP layer is a parameter: `net` maps the requested API URL to an
  `HttpResult` (either an exception raised by `requests.get`, or a
  response with a status code and a decodable/undecodable JSON body).
* The MySQL table is a `List JobRecord`; the generated
  `INSERT ... ON DUPLICATE KEY UPDATE` statement becomes `upsert`, whose
  conflict action rewrites every non-primary-key column, mirroring the
  dict comprehension over `jobs_104_table.columns`.
-/

/-- Python exception classes relevant to the program.  `httpError` and
`jsonDecodeError` are the two classes named in the `except` clause of
`fetch_104_data`; `connectionError` stands for
`requests.exceptions.ConnectionError` (a transport failure that is *not*
an `HTTPError`); `attributeError` is raised by `x.get(...)` when `x` is
not a dict; `indexError` by out-of-range list indexing. -/
inductive PyExc where
  | httpError
  | jsonDecodeError
  | connectionError
  | attributeError
  | indexError
deriving DecidableEq, Repr

/-- Python values as they occur in decoded JSON payloads. -/
inductive PyVal where
  | none
  | bool (b : Bool)
  | int (n : Int)
  | str (s : String)
  | dict (fields : List (String × PyVal))
  | list (elems : List PyVal)

/-- Python truthiness (`bool(v)`): `None`, `False`, `0`, `""`, `{}`, `[]`
are falsy. -/
def pyTruthy : PyVal → Bool
  | .none => false
  | .bool b => b
  | .int n => !(decide (n = 0))
  | .str s => !(s == "")
  | .dict fs => !fs.isEmpty
  | .list xs => !xs.isEmpty

/-- Python `v == s` for a string literal `s`: values of other types
compare unequal without faulting. -/
def pyEqStr (v : PyVal) (s : String) : Bool :=
  match v with
  | .str t => t == s
  | _ => false

/-- Python `v.get(key, default)`: defined on dicts (the stored value is
returned even when it is `None`; the default only applies when the key is
missing), and raises `AttributeError` on any non-dict receiver. -/
def pyGet (v : PyVal) (key : String) (dflt : PyVal) : Except PyExc PyVal :=
  match v with
  | .dict fs =>
    match fs.lookup key with
    | some w => .ok w
    | Option.none => .ok dflt
  | _ => .error .attributeError

theorem pyGet_dict (fs : List (String × PyVal)) (key : String) (dflt : PyVal) :
    pyGet (.dict fs) key dflt = .ok ((fs.lookup key).getD dflt) := by
  cases h : fs.lookup key <;> simp [pyGet, h]

/-- Python `s.split(sep)` for a single-character separator, acting on the
character list: splits at every occurrence and keeps empty pieces, so the
result is never empty (`"".split(c) = [""]`). -/
def splitChars (sep : Char) : List Char → List (List Char)
  | [] => [[]]
  | c :: cs =>
    if c = sep then [] :: splitChars sep cs
    else
      match splitChars sep cs with
      | [] => [[c]]
      | r :: rs => (c :: r) :: rs

theorem splitChars_ne_nil (sep : Char) (l : List Char) : splitChars sep l ≠ [] := by
  cases l with
  | nil => simp [splitChars]
  | cons c cs =>
    unfold splitChars
    split
    · simp
    · split <;> simp

theorem splitChars_no_sep (sep : Char) :
    ∀ l : List Char, sep ∉ l → splitChars sep l = [l]
  | [], _ => rfl
  | c :: cs, h => by
    unfold splitChars
    rw [if_neg (fun (hc : c = sep) => h (hc ▸ List.mem_cons_self c cs))]
    rw [splitChars_no_sep sep cs (fun hm => h (List.mem_cons_of_mem c hm))]

theorem splitChars_length_ge_two (sep : Char) :
    ∀ l : List Char, sep ∈ l → 2 ≤ (splitChars sep l).length
  | [], h => absurd h (List.not_mem_nil sep)
  | c :: cs, h => by
    unfold splitChars
    by_cases hc : c = sep
    · rw [if_pos hc]
      have hne := splitChars_ne_nil sep cs
      have hpos : 0 < (splitChars sep cs).length := List.length_pos.mpr hne
      simp only [List.length_cons]
      omega
    · rw [if_neg hc]
      have hmem : sep ∈ cs := by
        rcases List.mem_cons.mp h with h1 | h2
        · exact absurd h1.symm hc
        · exact h2
      have ih := splitChars_length_ge_two sep cs hmem
      obtain ⟨r, rs, hr⟩ := List.exists_cons_of_ne_nil (splitChars_ne_nil sep cs)
      rw [hr]
      rw [hr] at ih
      simpa using ih

theorem splitChars_getLast_append (sep : Char) (ys : List Char) (hys : sep ∉ ys) :
    ∀ xs : List Char, (splitChars sep (xs ++ sep :: ys)).getLast? = some ys
  | [] => by
    show (splitChars sep (sep :: ys)).getLast? = some ys
    unfold splitChars
    rw [if_pos rfl]
    rw [splitChars_no_sep sep ys hys]
    rfl
  | c :: xs => by
    show (splitChars sep (c :: (xs ++ sep :: ys))).getLast? = some ys
    unfold splitChars
    by_cases hc : c = sep
    · rw [if_pos hc]
      obtain ⟨a, l2, hal⟩ := List.exists_cons_of_ne_nil (splitChars_ne_nil sep (xs ++ sep :: ys))
      rw [hal, List.getLast?_cons_cons, ← hal]
      exact splitChars_getLast_append sep ys hys xs
    · rw [if_neg hc]
      have ih := splitChars_getLast_append sep ys hys xs
      obtain ⟨r, rs, hr⟩ := List.exists_cons_of_ne_nil (splitChars_ne_nil sep (xs ++ sep :: ys))
      have hlen := splitChars_length_ge_two sep (xs ++ sep :: ys)
        (by simp)
      rw [hr] at ih hlen ⊢
      match rs, ih, hlen with
      | r2 :: rs2, ih, _ =>
        rw [List.getLast?_cons_cons]
        rw [List.getLast?_cons_cons] at ih
        exact ih

theorem splitChars_head_append (sep : Char) (ys : List Char) :
    ∀ xs : List Char, sep ∉ xs → (splitChars sep (xs ++ sep :: ys)).head? = some xs
  | [], _ => by
    show (splitChars sep (sep :: ys)).head? = some []
    unfold splitChars
    rw [if_pos rfl]
    rfl
  | c :: xs, h => by
    show (splitChars sep (c :: (xs ++ sep :: ys))).head? = some (c :: xs)
    unfold splitChars
    rw [if_neg (fun (hc : c = sep) => h (hc ▸ List.mem_cons_self c xs))]
    have ih := splitChars_head_append sep ys xs (fun hm => h (List.mem_cons_of_mem c hm))
    obtain ⟨r, rs, hr⟩ := List.exists_cons_of_ne_nil (splitChars_ne_nil sep (xs ++ sep :: ys))
    rw [hr] at ih ⊢
    simp only [List.head?] at ih ⊢
    rw [Option.some.injEq] at ih
    rw [ih]

/-- Python `s.split(sep)` for a single-character separator. -/
def pySplit (s : String) (sep : Char) : List String :=
  (splitChars sep s.data).map (fun l => String.mk l)

theorem pySplit_ne_nil (s : String) (sep : Char) : pySplit s sep ≠ [] := by
  unfold pySplit
  intro h
  exact splitChars_ne_nil sep s.data (List.map_eq_nil_iff.mp h)

/-- Python `l[-1]`: the last element, or `IndexError` on an empty list. -/
def pyIndexLast {α : Type} (l : List α) : Except PyExc α :=
  match l.getLast? with
  | some a => .ok a
  | Option.none => .error .indexError

/-- Python `l[0]`: the first element, or `IndexError` on an empty list. -/
def pyIndexFirst {α : Type} (l : List α) : Except PyExc α :=
  match l.head? with
  | some a => .ok a
  | Option.none => .error .indexError

/-- `url.split('/')[-1].split('?')[0]` — the job-id derivation inside the
`try` block of `fetch_104_data` (src line 33). -/
def jobIdOf (url : String) : Except PyExc String :=
  match pyIndexLast (pySplit url '/') with
  | .error e => .error e
  | .ok seg =>
    match pyIndexFirst (pySplit seg '?') with
    | .error e => .error e
    | .ok tok => .ok tok

theorem getLast_some_of_ne_nil {α : Type} :
    ∀ l : List α, l ≠ [] → ∃ a, l.getLast? = some a
  | [], h => absurd rfl h
  | [a], _ => ⟨a, rfl⟩
  | a :: b :: t, _ => by
    obtain ⟨x, hx⟩ := getLast_some_of_ne_nil (b :: t) (by simp)
    exact ⟨x, by rw [List.getLast?_cons_cons]; exact hx⟩

theorem jobIdOf_ok (url : String) : ∃ s, jobIdOf url = .ok s := by
  obtain ⟨seg, hseg⟩ := getLast_some_of_ne_nil _ (pySplit_ne_nil url '/')
  obtain ⟨tok, rest, htok⟩ := List.exists_cons_of_ne_nil (pySplit_ne_nil seg '?')
  refine ⟨tok, ?_⟩
  unfold jobIdOf pyIndexLast pyIndexFirst
  rw [hseg]
  dsimp only
  rw [htok]
  rfl

/-- The flat record built by `extracted_info` (src lines 53-72): 18 keys,
`job_id` always the derived identifier string, every other value a
Python value read from the payload. -/
structure JobRecord where
  job_id : String
  update_date : PyVal
  title : PyVal
  description : PyVal
  salary : PyVal
  work_type : PyVal
  work_time : PyVal
  location : PyVal
  degree : PyVal
  department : PyVal
  working_experience : PyVal
  qualification_required : PyVal
  qualification_bonus : PyVal
  company_id : PyVal
  company_name : PyVal
  company_address : PyVal
  contact_person : PyVal
  contact_phone : PyVal

/-- The `extracted_info` dict literal of `fetch_104_data` (src lines
53-72), evaluated top to bottom; every field is
`job_data.get(section, {}).get(key)` except `contact_phone`, whose inner
`get` carries the placeholder default `'未提供'`. -/
def extractInfo (job_id : String) (job_data : PyVal) : Except PyExc JobRecord := do
  let update_date ← pyGet (← pyGet job_data "header" (.dict [])) "appearDate" .none
  let title ← pyGet (← pyGet job_data "header" (.dict [])) "jobName" .none
  let description ← pyGet (← pyGet job_data "jobDetail" (.dict [])) "jobDescription" .none
  let salary ← pyGet (← pyGet job_data "jobDetail" (.dict [])) "salary" .none
  let work_type ← pyGet (← pyGet job_data "jobDetail" (.dict [])) "workType" .none
  let work_time ← pyGet (← pyGet job_data "jobDetail" (.dict [])) "workPeriod" .none
  let location ← pyGet (← pyGet job_data "jobDetail" (.dict [])) "addressRegion" .none
  let degree ← pyGet (← pyGet job_data "condition" (.dict [])) "edu" .none
  let department ← pyGet (← pyGet job_data "jobDetail" (.dict [])) "department" .none
  let working_experience ← pyGet (← pyGet job_data "condition" (.dict [])) "workExp" .none
  let qualification_required ← pyGet (← pyGet job_data "condition" (.dict [])) "other" .none
  let qualification_bonus ← pyGet (← pyGet job_data "welfare" (.dict [])) "welfare" .none
  let company_id ← pyGet (← pyGet job_data "header" (.dict [])) "custNo" .none
  let company_name ← pyGet (← pyGet job_data "header" (.dict [])) "custName" .none
  let company_address ← pyGet (← pyGet job_data "company" (.dict [])) "address" .none
  let contact_person ← pyGet (← pyGet job_data "contact" (.dict [])) "hrName" .none
  let contact_phone ← pyGet (← pyGet job_data "contact" (.dict [])) "email" (.str "未提供")
  pure ⟨job_id, update_date, title, description, salary, work_type, work_time, location,
    degree, department, working_experience, qualification_required, qualification_bonus,
    company_id, company_name, company_address, contact_person, contact_phone⟩

/-- The six nested payload sections accessed by `extracted_info`. -/
def sectionKeys : List String :=
  ["header", "jobDetail", "condition", "welfare", "company", "contact"]

def isDict : PyVal → Bool
  | .dict _ => true
  | _ => false

/-- Every section that `extracted_info` reads through is, after the
`.get(section, {})` defaulting, an actual dict (i.e. each section key is
either missing or bound to a dict). -/
def sectionsOk (fs : List (String × PyVal)) : Bool :=
  sectionKeys.all (fun k => isDict ((fs.lookup k).getD (.dict [])))

theorem exceptBind_ok {α β ε : Type} (a : α) (f : α → Except ε β) :
    (Except.ok a >>= f : Except ε β) = f a := rfl

theorem exceptMap_ok {α β ε : Type} (a : α) (f : α → β) :
    (f <$> (Except.ok a : Except ε α)) = Except.ok (f a) := rfl

theorem extractInfo_eq (job_id : String)
    (fs gh gj gc gw gco gct : List (String × PyVal))
    (hh : (fs.lookup "header").getD (.dict []) = .dict gh)
    (hj : (fs.lookup "jobDetail").getD (.dict []) = .dict gj)
    (hc : (fs.lookup "condition").getD (.dict []) = .dict gc)
    (hw : (fs.lookup "welfare").getD (.dict []) = .dict gw)
    (hco : (fs.lookup "company").getD (.dict []) = .dict gco)
    (hct : (fs.lookup "contact").getD (.dict []) = .dict gct) :
    extractInfo job_id (.dict fs) = .ok ⟨job_id,
      (gh.lookup "appearDate").getD .none,
      (gh.lookup "jobName").getD .none,
      (gj.lookup "jobDescription").getD .none,
      (gj.lookup "salary").getD .none,
      (gj.lookup "workType").getD .none,
      (gj.lookup "workPeriod").getD .none,
      (gj.lookup "addressRegion").getD .none,
      (gc.lookup "edu").getD .none,
      (gj.lookup "department").getD .none,
      (gc.lookup "workExp").getD .none,
      (gc.lookup "other").getD .none,
      (gw.lookup "welfare").getD .none,
      (gh.lookup "custNo").getD .none,
      (gh.lookup "custName").getD .none,
      (gco.lookup "address").getD .none,
      (gct.lookup "hrName").getD .none,
      (gct.lookup "email").getD (.str "未提供")⟩ := by
  simp [extractInfo, pyGet_dict, hh, hj, hc, hw, hco, hct, exceptBind_ok, exceptMap_ok]

/-- A JSON body as seen by `response.json()`. -/
inductive JsonBody where
  | decodable (v : PyVal)
  | undecodable

/-- Outcome of `requests.get(url_api, headers=headers)`: either the call
itself raises, or it yields a response with a status code and a body. -/
inductive HttpResult where
  | raised (e : PyExc)
  | response (status : Nat) (body : JsonBody)

/-- The diagnostics `fetch_104_data` can emit through `logger`. -/
inductive LogEvent where
  | malformedUrlError
  | apiRequestError
  | jobClosedWarning
deriving DecidableEq, Repr

/-- `except (HTTPError, JSONDecodeError)` (src line 44): only these two
exception classes are caught around the request block. -/
def caughtByFetch (e : PyExc) : Bool :=
  match e with
  | .httpError => true
  | .jsonDecodeError => true
  | _ => false

/-- The `try` block of src lines 40-46: `requests.get`, then
`raise_for_status` (which raises `HTTPError` for 4xx/5xx status codes),
then `response.json()` (which raises `JSONDecodeError` on an undecodable
body).  A caught exception logs an error and returns `{}` (modelled as
`Option.none`); any other exception propagates. -/
def fetchTry (http : HttpResult) : List LogEvent × Except PyExc (Option PyVal) :=
  match http with
  | .raised e =>
    if caughtByFetch e then ([.apiRequestError], .ok Option.none)
    else ([], .error e)
  | .response status body =>
    if 400 ≤ status ∧ status < 600 then ([.apiRequestError], .ok Option.none)
    else
      match body with
      | .undecodable => ([.apiRequestError], .ok Option.none)
      | .decodable v => ([], .ok (some v))

/-- Src lines 40-74 for an already-derived `job_id`: the request block,
the `data.get('data', {})` access, the
`if not job_data or job_data.get('custSwitch', {}) == "off"` guard
(short-circuiting like Python's `or`), and finally `extracted_info`. -/
def fetchBody (job_id : String) (http : HttpResult) :
    List LogEvent × Except PyExc (Option JobRecord) :=
  match fetchTry http with
  | (logs, .error e) => (logs, .error e)
  | (logs, .ok Option.none) => (logs, .ok Option.none)
  | (logs, .ok (some payload)) =>
    match pyGet payload "data" (.dict []) with
    | .error e => (logs, .error e)
    | .ok job_data =>
      if pyTruthy job_data then
        match pyGet job_data "custSwitch" (.dict []) with
        | .error e => (logs, .error e)
        | .ok sw =>
          if pyEqStr sw "off" then (logs ++ [.jobClosedWarning], .ok Option.none)
          else
            match extractInfo job_id job_data with
            | .error e => (logs, .error e)
            | .ok info => (logs, .ok (some info))
      else (logs ++ [.jobClosedWarning], .ok Option.none)

/-- `fetch_104_data(url)` (src lines 17-74).  The network is the
parameter `net`, mapping the constructed API URL to its `HttpResult`.
The returned pair is (logged diagnostics, result): `.ok Option.none` is
the empty dict `{}` (Absent), `.ok (some r)` is `extracted_info`, and
`.error e` is an exception escaping the function. -/
def fetch_104_data (url : String) (net : String → HttpResult) :
    List LogEvent × Except PyExc (Option JobRecord) :=
  match jobIdOf url with
  | .error _ => ([.malformedUrlError], .ok Option.none)
  | .ok job_id =>
    fetchBody job_id (net ("https://www.104.com.tw/job/ajax/content/" ++ job_id))

/-- One column of the `jobs_104` table declaration (src lines 85-106):
its name and its `primary_key` flag. -/
structure ColumnSpec where
  name : String
  primary_key : Bool

/-- The 18 columns of `jobs_104`, in declaration order; only `job_id` is
a primary key. -/
def jobs_104_columns : List ColumnSpec :=
  [⟨"job_id", true⟩, ⟨"update_date", false⟩, ⟨"title", false⟩,
   ⟨"description", false⟩, ⟨"salary", false⟩, ⟨"work_type", false⟩,
   ⟨"work_time", false⟩, ⟨"location", false⟩, ⟨"degree", false⟩,
   ⟨"department", false⟩, ⟨"working_experience", false⟩,
   ⟨"qualification_required", false⟩, ⟨"qualification_bonus", false⟩,
   ⟨"company_id", false⟩, ⟨"company_name", false⟩,
   ⟨"company_address", false⟩, ⟨"contact_person", false⟩,
   ⟨"contact_phone", false⟩]

/-- Read a non-key column of a record by column name. -/
def getCol (r : JobRecord) (c : String) : PyVal :=
  match c with
  | "update_date" => r.update_date
  | "title" => r.title
  | "description" => r.description
  | "salary" => r.salary
  | "work_type" => r.work_type
  | "work_time" => r.work_time
  | "location" => r.location
  | "degree" => r.degree
  | "department" => r.department
  | "working_experience" => r.working_experience
  | "qualification_required" => r.qualification_required
  | "qualification_bonus" => r.qualification_bonus
  | "company_id" => r.company_id
  | "company_name" => r.company_name
  | "company_address" => r.company_address
  | "contact_person" => r.contact_person
  | "contact_phone" => r.contact_phone
  | _ => PyVal.none

/-- Overwrite a non-key column of a record by column name. -/
def setCol (r : JobRecord) (c : String) (v : PyVal) : JobRecord :=
  match c with
  | "update_date" => { r with update_date := v }
  | "title" => { r with title := v }
  | "description" => { r with description := v }
  | "salary" => { r with salary := v }
  | "work_type" => { r with work_type := v }
  | "work_time" => { r with work_time := v }
  | "location" => { r with location := v }
  | "degree" => { r with degree := v }
  | "department" => { r with department := v }
  | "working_experience" => { r with working_experience := v }
  | "qualification_required" => { r with qualification_required := v }
  | "qualification_bonus" => { r with qualification_bonus := v }
  | "company_id" => { r with company_id := v }
  | "company_name" => { r with company_name := v }
  | "company_address" => { r with company_address := v }
  | "contact_person" => { r with contact_person := v }
  | "contact_phone" => { r with contact_phone := v }
  | _ => r

/-- The `on_duplicate_key_update` assignment dict of src lines 133-141:
`{col.name: insert_stmt.inserted[col.name] for col in columns if not
col.primary_key}` — every non-primary-key column is rewritten to the
newly inserted value. -/
def applyUpdate (old new : JobRecord) : JobRecord :=
  ((jobs_104_columns.filter (fun c => !c.primary_key)).map (fun c => c.name)).foldl
    (fun acc c => setCol acc c (getCol new c)) old

theorem applyUpdate_eq (old new : JobRecord) :
    applyUpdate old new = { new with job_id := old.job_id } := by
  simp [applyUpdate, jobs_104_columns, setCol, getCol]

/-- MySQL `INSERT ... ON DUPLICATE KEY UPDATE` semantics for a table
keyed by `job_id` (src lines 128-147): insert the row if no existing row
has its key; otherwise apply the update assignments to the conflicting
row. -/
def upsert (t : List JobRecord) (r : JobRecord) : List JobRecord :=
  if t.any (fun row => row.job_id == r.job_id) then
    t.map (fun row => if row.job_id == r.job_id then applyUpdate row r else row)
  else t ++ [r]

/-- A database-layer exception during `conn.execute`. -/
inductive DbError where
  | constraintViolation
  | connectionFailure
  | typeMismatch
deriving DecidableEq, Repr

/-- Whether the single `conn.execute(update_stmt)` raises. -/
inductive ExecOutcome where
  | success
  | raises (e : DbError)

/-- `with engine.begin() as conn:` (src lines 146-147), with SQLAlchemy's
documented context-manager semantics: the transaction commits when the
block exits normally and rolls back (leaving the table unchanged) when
the block raises, re-raising the exception. -/
def engineBeginExec (t : List JobRecord) (r : JobRecord) (o : ExecOutcome) :
    Except DbError (List JobRecord) :=
  match o with
  | .success => .ok (upsert t r)
  | .raises e => .error e

/-- Outcome of the persisting step: the table afterwards, whether the
process crashed, and whether the error log line was emitted. -/
structure PersistResult where
  table : List JobRecord
  crashed : Bool
  loggedError : Bool

/-- The `try`/`except Exception` around the transaction (src lines
144-150): any database exception is caught and logged; nothing
propagates further. -/
def persistRecord (t : List JobRecord) (r : JobRecord) (o : ExecOutcome) : PersistResult :=
  match engineBeginExec t r o with
  | .ok t2 => ⟨t2, false, false⟩
  | .error _ => ⟨t, false, true⟩

theorem filter_map_update (r : JobRecord) :
    ∀ t : List JobRecord, (t.map (fun row => row.job_id)).Nodup →
      (∃ row ∈ t, row.job_id = r.job_id) →
      (t.map (fun row => if row.job_id == r.job_id then applyUpdate row r else row)).filter
        (fun row => row.job_id == r.job_id) = [r] := by
  intro t
  induction t with
  | nil =>
    intro _ hmem
    rcases hmem with ⟨row, hrow, _⟩
    exact absurd hrow (List.not_mem_nil row)
  | cons a t ih =>
    intro hnd hmem
    simp only [List.map_cons, List.nodup_cons] at hnd
    obtain ⟨hna, hnd2⟩ := hnd
    by_cases ha : a.job_id = r.job_id
    · have htail : ∀ row ∈ t, row.job_id ≠ r.job_id := by
        intro row hrow heq
        exact hna (by rw [← ha] at heq; exact (List.mem_map.mpr ⟨row, hrow, heq⟩))
      have hmap : t.map (fun row => if row.job_id == r.job_id then applyUpdate row r else row) = t := by
        conv_rhs => rw [← List.map_id t]
        apply List.map_congr_left
        intro row hrow
        simp only [id]
        exact if_neg (fun hb => htail row hrow (by simpa using hb))
      have hfa : (if a.job_id == r.job_id then applyUpdate a r else a) = r := by
        rw [if_pos (by simp [ha])]
        rw [applyUpdate_eq, ha]
      simp only [List.map_cons, hfa, hmap]
      rw [List.filter_cons]
      rw [if_pos (by simp)]
      rw [List.filter_eq_nil_iff.mpr (fun row hrow => by
        simp only [beq_iff_eq]
        exact htail row hrow)]
    · have hfa : (if a.job_id == r.job_id then applyUpdate a r else a) = a := by
        rw [if_neg]
        simp only [beq_iff_eq]
        exact ha
      have hmem2 : ∃ row ∈ t, row.job_id = r.job_id := by
        rcases hmem with ⟨row, hrow, hid⟩
        rcases List.mem_cons.mp hrow with h1 | h2
        · exact absurd (h1 ▸ hid) ha
        · exact ⟨row, h2, hid⟩
      simp only [List.map_cons, hfa]
      rw [List.filter_cons]
      rw [if_neg (by simp [ha])]
      exact ih hnd2 hmem2

theorem upsert_filter_self (t : List JobRecord) (r : JobRecord)
    (hnd : (t.map (fun row => row.job_id)).Nodup) :
    (upsert t r).filter (fun row => row.job_id == r.job_id) = [r] := by
  unfold upsert
  by_cases hmem : ∃ row ∈ t, row.job_id = r.job_id
  · rw [if_pos]
    · exact filter_map_update r t hnd hmem
    · rcases hmem with ⟨row, hrow, hid⟩
      exact List.any_eq_true.mpr ⟨row, hrow, by simp [hid]⟩
  · rw [if_neg]
    · rw [List.filter_append]
      rw [List.filter_eq_nil_iff.mpr (fun row hrow => by
        simp only [beq_iff_eq]
        exact fun heq => hmem ⟨row, hrow, heq⟩)]
      simp
    · intro hany
      rcases List.any_eq_true.mp hany with ⟨row, hrow, hp⟩
      exact hmem ⟨row, hrow, by simpa using hp⟩

theorem upsert_keys_nodup (t : List JobRecord) (r : JobRecord)
    (hnd : (t.map (fun row => row.job_id)).Nodup) :
    ((upsert t r).map (fun row => row.job_id)).Nodup := by
  unfold upsert
  by_cases hany : t.any (fun row => row.job_id == r.job_id) = true
  · rw [if_pos hany]
    have hmap : (t.map (fun row => if row.job_id == r.job_id then applyUpdate row r else row)).map
        (fun row => row.job_id) = t.map (fun row => row.job_id) := by
      rw [List.map_map]
      exact List.map_congr_left (fun row _ => by
        by_cases h : row.job_id = r.job_id
        · simp [h, applyUpdate_eq]
        · simp [h])
    rw [hmap]
    exact hnd
  · rw [if_neg hany]
    rw [List.map_append]
    refine List.Nodup.append hnd (List.nodup_singleton _) ?_
    intro x hx hx2
    simp only [List.map_cons, List.map_nil, List.mem_singleton] at hx2
    rcases List.mem_map.mp hx with ⟨row, hrow, hid⟩
    exact hany (List.any_eq_true.mpr ⟨row, hrow, by simp [hid, hx2]⟩)

/-- C1: for every table with unique identifiers, upserting a record and
then upserting a second record with the same identifier but a different
title leaves exactly one row for that identifier, and that row equals
the second record in every non-key column — nulls in the second record
included — because the generated statement rewrites all non-primary-key
columns on key conflict (full overwrite, not merge). -/
theorem upsert_same_id_last_write_wins (t : List JobRecord) (r1 r2 : JobRecord)
    (hnd : (t.map (fun row => row.job_id)).Nodup) (_hid : r2.job_id = r1.job_id) :
    (upsert (upsert t r1) r2).filter (fun row => row.job_id == r2.job_id) = [r2] :=
  upsert_filter_self (upsert t r1) r2 (upsert_keys_nodup t r1 hnd)

/-- First upserted record: non-null title and description. -/
def rec8863A : JobRecord :=
  ⟨"8863t", .str "2024/01/01", .str "資料工程師", .str "維護資料管線", .str "月薪40000",
   .str "全職", .none, .str "台北市", .none, .none, .none, .none, .none,
   .str "c001", .str "某公司", .none, .str "王小姐", .str "未提供"⟩

/-- Second upserted record: same identifier, different title, and null
description (which must overwrite the first record's non-null one). -/
def rec8863B : JobRecord :=
  ⟨"8863t", .str "2024/02/02", .str "後端工程師", .none, .none,
   .none, .none, .none, .none, .none, .none, .none, .none,
   .none, .none, .none, .none, .str "未提供"⟩

theorem upsert_same_id_last_write_wins_witness :
    (([] : List JobRecord).map (fun row => row.job_id)).Nodup ∧
    rec8863B.job_id = rec8863A.job_id ∧
    (upsert (upsert [] rec8863A) rec8863B).filter
      (fun row => row.job_id == rec8863B.job_id) = [rec8863B] :=
  ⟨by simp, rfl, upsert_same_id_last_write_wins [] rec8863A rec8863B (by simp) rfl⟩

/-- C8: whatever the single `conn.execute` does, the process never
crashes; the table is `upsert t r` exactly when the execute succeeds
(commit) and unchanged when it raises (rollback), and the database error
log line is emitted exactly on failure. -/
theorem persist_no_crash_rollback (t : List JobRecord) (r : JobRecord) (o : ExecOutcome) :
    (persistRecord t r o).crashed = false ∧
    (persistRecord t r o).table =
      (match o with
       | .success => upsert t r
       | .raises _ => t) ∧
    (persistRecord t r o).loggedError =
      (match o with
       | .success => false
       | .raises _ => true) := by
  cases o <;> simp [persistRecord, engineBeginExec]

theorem getLast_map_pySplit (s : String) (sep : Char) :
    (pySplit s sep).getLast? = (splitChars sep s.data).getLast?.map (fun l => String.mk l) :=
  List.getLast?_map (fun l => String.mk l) (splitChars sep s.data)

/-- C9: the identifier derivation `url.split('/')[-1].split('?')[0]` is
total — `split` always returns a non-empty list, so neither index can
raise `IndexError` and the `except IndexError` handler is unreachable —
and a URL ending in `'/'` yields the empty identifier string rather than
a failure. -/
theorem job_id_derivation_total (url : String) :
    (jobIdOf url).isOk = true ∧ jobIdOf (url ++ "/") = .ok "" := by
  constructor
  · obtain ⟨s, hs⟩ := jobIdOf_ok url
    rw [hs]
    rfl
  · have h1 : (splitChars '/' ((url ++ "/").data)).getLast? = some [] := by
      show (splitChars '/' (url.data ++ '/' :: [])).getLast? = some []
      exact splitChars_getLast_append '/' [] (by simp) url.data
    have h2 : (pySplit (url ++ "/") '/').getLast? = some "" := by
      rw [getLast_map_pySplit, h1]
      rfl
    unfold jobIdOf pyIndexLast
    rw [h2]
    dsimp only
    rfl

/-- C2 (code evaluation): 4xx statuses and undecodable bodies are caught
and converted to the Absent result `{}` with a logged error, but an
exception raised by `requests.get` itself — such as
`requests.exceptions.ConnectionError`, which is not an `HTTPError` —
escapes `fetch_104_data` uncaught, because the `except` clause names only
`HTTPError` and `JSONDecodeError`. -/
theorem fetch_transport_error_behavior :
    fetch_104_data "https://www.104.com.tw/job/8863t"
      (fun _ => .response 404 (.decodable (.dict []))) =
      ([.apiRequestError], .ok Option.none) ∧
    fetch_104_data "https://www.104.com.tw/job/8863t"
      (fun _ => .response 200 .undecodable) =
      ([.apiRequestError], .ok Option.none) ∧
    fetch_104_data "https://www.104.com.tw/job/8863t"
      (fun _ => .raised .connectionError) =
      ([], .error .connectionError) :=
  ⟨rfl, rfl, rfl⟩

theorem fetchTry_logs (http : HttpResult) :
    (fetchTry http).1 = [] ∨ (fetchTry http).1 = [LogEvent.apiRequestError] := by
  unfold fetchTry
  rcases http with e | ⟨status, body⟩
  · dsimp only
    by_cases hc : caughtByFetch e = true
    · rw [if_pos hc]; right; rfl
    · rw [if_neg hc]; left; rfl
  · dsimp only
    by_cases hs : 400 ≤ status ∧ status < 600
    · rw [if_pos hs]; right; rfl
    · rw [if_neg hs]
      rcases body with v | _
      · left; rfl
      · right; rfl

theorem malformed_not_logged_by_body (job_id : String) (http : HttpResult) :
    ((fetchBody job_id http).1.contains LogEvent.malformedUrlError) = false := by
  have hlogs := fetchTry_logs http
  unfold fetchBody
  rcases htry : fetchTry http with ⟨logs, res⟩
  rw [htry] at hlogs
  simp only at hlogs
  have hcon : logs.contains LogEvent.malformedUrlError = false := by
    rcases hlogs with h | h <;> subst h <;> rfl
  have hcon2 : (logs ++ [LogEvent.jobClosedWarning]).contains LogEvent.malformedUrlError = false := by
    rcases hlogs with h | h <;> subst h <;> rfl
  rcases res with e | op
  · simpa using hcon
  · rcases op with _ | payload
    · simpa using hcon
    · dsimp only
      rcases hv : pyGet payload "data" (.dict []) with e2 | jd
      · simpa using hcon
      · dsimp only
        by_cases ht : pyTruthy jd = true
        · rw [if_pos ht]
          rcases hsw : pyGet jd "custSwitch" (.dict []) with e3 | sw
          · simpa using hcon
          · dsimp only
            by_cases hoff : pyEqStr sw "off" = true
            · rw [if_pos hoff]
              simpa using hcon2
            · rw [if_neg hoff]
              rcases hex : extractInfo job_id jd with e4 | info
              · simpa using hcon
              · simpa using hcon
        · rw [if_neg ht]
          simpa using hcon2

/-- An open payload whose job posting carries only a title. -/
def openHeaderPayload : PyVal :=
  .dict [("data", .dict [("header", .dict [("jobName", .str "數據分析師")])])]

/-- The record `fetch_104_data` builds for a URL whose last path segment
is empty: a fully formed record with an empty identifier. -/
def emptyIdRecord : JobRecord :=
  ⟨"", .none, .str "數據分析師", .none, .none, .none, .none, .none, .none, .none,
   .none, .none, .none, .none, .none, .none, .none, .str "未提供"⟩

/-- C3 (counterexample): the URL `https://www.104.com.tw/job/` ends in an
empty path segment, yet `fetch_104_data` happily derives the empty
identifier and — given an open payload — returns a populated record whose
`job_id` is `""`; no validity check rejects it. -/
theorem empty_job_id_record_produced :
    (fetch_104_data "https://www.104.com.tw/job/"
      (fun _ => .response 200 (.decodable openHeaderPayload))).2 =
      .ok (some emptyIdRecord) ∧
    emptyIdRecord.job_id = "" :=
  ⟨rfl, rfl⟩

/-- C3 (amended): the identifier derivation in `fetch_104_data` is total,
so `MalformedUrl` is never signalled — the `except IndexError` handler is
dead code and its diagnostic is never logged for any URL and any network
behaviour; a URL whose last path segment is empty still produces a
record, with the empty string as its identifier. -/
theorem malformed_url_never_signalled (url : String) (net : String → HttpResult) :
    ((fetch_104_data url net).1.contains LogEvent.malformedUrlError) = false ∧
    (fetch_104_data "https://www.104.com.tw/job/"
      (fun _ => .response 200 (.decodable openHeaderPayload))).2 =
      .ok (some emptyIdRecord) := by
  constructor
  · obtain ⟨s, hs⟩ := jobIdOf_ok url
    unfold fetch_104_data
    rw [hs]
    exact malformed_not_logged_by_body s _
  · rfl

/-- C6: a decoded payload whose `data` section is falsy (missing, null or
empty) or whose `custSwitch` flag equals `"off"` makes `fetch_104_data`
return the Absent result `{}` with exactly the closed-posting warning
logged, never a partial record. -/
theorem closed_or_empty_payload_absent (url : String) (fs : List (String × PyVal))
    (h : pyTruthy ((fs.lookup "data").getD (.dict [])) = false ∨
         ∃ g, (fs.lookup "data").getD (.dict []) = .dict g ∧
              g.lookup "custSwitch" = some (.str "off")) :
    fetch_104_data url (fun _ => .response 200 (.decodable (.dict fs))) =
      ([LogEvent.jobClosedWarning], .ok Option.none) := by
  obtain ⟨s, hs⟩ := jobIdOf_ok url
  unfold fetch_104_data
  rw [hs]
  show fetchBody s (.response 200 (.decodable (.dict fs))) =
    ([LogEvent.jobClosedWarning], .ok Option.none)
  unfold fetchBody fetchTry
  dsimp only
  rw [if_neg (by omega)]
  dsimp only
  rw [pyGet_dict]
  dsimp only
  rcases h with hf | ⟨g, hg, hsw⟩
  · rw [if_neg (by simp [hf])]
    rfl
  · rw [hg]
    have htr : pyTruthy (.dict g) = true := by
      cases g with
      | nil => cases hsw
      | cons a as => rfl
    rw [if_pos htr]
    rw [pyGet_dict, hsw]
    rfl

theorem closed_or_empty_payload_absent_witness :
    (([("data", PyVal.dict [("custSwitch", PyVal.str "off")])] : List (String × PyVal)).lookup
      "data").getD (.dict []) = PyVal.dict [("custSwitch", PyVal.str "off")] ∧
    fetch_104_data "https://www.104.com.tw/job/8863t"
      (fun _ => .response 200 (.decodable
        (.dict [("data", PyVal.dict [("custSwitch", PyVal.str "off")])]))) =
      ([LogEvent.jobClosedWarning], .ok Option.none) :=
  ⟨rfl, closed_or_empty_payload_absent _ _
    (Or.inr ⟨[("custSwitch", PyVal.str "off")], rfl, rfl⟩)⟩

/-- C5: for every prefix `p`, a URL of the form `p ++ "/job/8863t"` —
optionally followed by a query string `?q` (a query not itself containing
a path separator) — derives the identifier `8863t`: the derivation takes
the last `/`-separated segment and strips everything from the first `?`
onward. -/
theorem job_id_from_url_8863t (p q : String) :
    jobIdOf (p ++ "/job/8863t") = .ok "8863t" ∧
    ('/' ∉ q.data → jobIdOf ((p ++ "/job/8863t?") ++ q) = .ok "8863t") := by
  constructor
  · have hd1 : (p ++ "/job/8863t").data =
        (p.data ++ ['/', 'j', 'o', 'b']) ++ '/' :: ['8', '8', '6', '3', 't'] := by
      show p.data ++ ['/', 'j', 'o', 'b', '/', '8', '8', '6', '3', 't'] =
        (p.data ++ ['/', 'j', 'o', 'b']) ++ '/' :: ['8', '8', '6', '3', 't']
      simp only [List.append_assoc]
      rfl
    have hlast1 : (pySplit (p ++ "/job/8863t") '/').getLast? = some "8863t" := by
      rw [getLast_map_pySplit, hd1,
        splitChars_getLast_append '/' ['8', '8', '6', '3', 't'] (by decide)
          (p.data ++ ['/', 'j', 'o', 'b'])]
      rfl
    unfold jobIdOf pyIndexLast
    rw [hlast1]
    dsimp only
    rfl
  · intro hq
    have hys : '/' ∉ ['8', '8', '6', '3', 't', '?'] ++ q.data := by
      intro hmem
      rcases List.mem_append.mp hmem with h1 | h2
      · revert h1; decide
      · exact hq h2
    have hd2 : ((p ++ "/job/8863t?") ++ q).data =
        (p.data ++ ['/', 'j', 'o', 'b']) ++ '/' :: (['8', '8', '6', '3', 't', '?'] ++ q.data) := by
      show (p.data ++ ['/', 'j', 'o', 'b', '/', '8', '8', '6', '3', 't', '?']) ++ q.data =
        (p.data ++ ['/', 'j', 'o', 'b']) ++ '/' :: (['8', '8', '6', '3', 't', '?'] ++ q.data)
      simp only [List.append_assoc]
      rfl
    have hlast2 : (pySplit ((p ++ "/job/8863t?") ++ q) '/').getLast? =
        some (String.mk (['8', '8', '6', '3', 't', '?'] ++ q.data)) := by
      rw [getLast_map_pySplit, hd2,
        splitChars_getLast_append '/' (['8', '8', '6', '3', 't', '?'] ++ q.data) hys
          (p.data ++ ['/', 'j', 'o', 'b'])]
      rfl
    have hhead : (pySplit (String.mk (['8', '8', '6', '3', 't', '?'] ++ q.data)) '?').head? =
        some "8863t" := by
      unfold pySplit
      rw [List.head?_map]
      rw [show (String.mk (['8', '8', '6', '3', 't', '?'] ++ q.data)).data =
        ['8', '8', '6', '3', 't'] ++ '?' :: q.data from rfl]
      rw [splitChars_head_append '?' q.data ['8', '8', '6', '3', 't'] (by decide)]
      rfl
    unfold jobIdOf pyIndexLast
    rw [hlast2]
    dsimp only
    unfold pyIndexFirst
    rw [hhead]

theorem job_id_from_url_8863t_witness :
    ('/' ∉ "jobsource=jolist".data) ∧
    jobIdOf ("https://www.104.com.tw" ++ "/job/8863t") = .ok "8863t" ∧
    jobIdOf (("https://www.104.com.tw" ++ "/job/8863t?") ++ "jobsource=jolist") = .ok "8863t" := by
  have h := job_id_from_url_8863t "https://www.104.com.tw" "jobsource=jolist"
  exact ⟨by decide, h.1, h.2 (by decide)⟩

theorem sectionsOk_dict (fs : List (String × PyVal)) (hsec : sectionsOk fs = true)
    (k : String) (hk : k ∈ sectionKeys) :
    ∃ g, (fs.lookup k).getD (.dict []) = .dict g := by
  have h2 := List.all_eq_true.mp hsec k hk
  cases hv : (fs.lookup k).getD (.dict []) with
  | dict g => exact ⟨g, rfl⟩
  | none => rw [hv] at h2; simp [isDict] at h2
  | bool b => rw [hv] at h2; simp [isDict] at h2
  | int n => rw [hv] at h2; simp [isDict] at h2
  | str s => rw [hv] at h2; simp [isDict] at h2
  | list xs => rw [hv] at h2; simp [isDict] at h2

/-- C4: whenever the contact section's `email` entry is absent — because
the `contact` section is missing entirely (so the defaulted section is
the empty dict) or present without an `email` key — the extracted
`contact_phone` equals the literal placeholder `未提供` rather than null;
and `contact_phone` is the only field with such a non-null default: a
payload with every section missing extracts to a record that is null in
all sixteen other optional fields and the placeholder in
`contact_phone`. -/
theorem contact_phone_placeholder_when_absent (job_id : String)
    (fs : List (String × PyVal)) (hsec : sectionsOk fs = true) :
    (∀ g, (fs.lookup "contact").getD (.dict []) = .dict g →
       g.lookup "email" = Option.none →
       ∀ r, extractInfo job_id (.dict fs) = .ok r → r.contact_phone = .str "未提供") ∧
    ((∀ k ∈ sectionKeys, fs.lookup k = Option.none) →
       extractInfo job_id (.dict fs) = .ok
         ⟨job_id, .none, .none, .none, .none, .none, .none, .none, .none, .none,
          .none, .none, .none, .none, .none, .none, .none, .str "未提供"⟩) := by
  constructor
  · intro g hg hemail r hr
    obtain ⟨gh, hh⟩ := sectionsOk_dict fs hsec "header" (by simp [sectionKeys])
    obtain ⟨gj, hj⟩ := sectionsOk_dict fs hsec "jobDetail" (by simp [sectionKeys])
    obtain ⟨gc, hc⟩ := sectionsOk_dict fs hsec "condition" (by simp [sectionKeys])
    obtain ⟨gw, hw⟩ := sectionsOk_dict fs hsec "welfare" (by simp [sectionKeys])
    obtain ⟨gco, hco⟩ := sectionsOk_dict fs hsec "company" (by simp [sectionKeys])
    rw [extractInfo_eq job_id fs gh gj gc gw gco g hh hj hc hw hco hg] at hr
    injection hr with h2
    subst h2
    show (g.lookup "email").getD (.str "未提供") = .str "未提供"
    rw [hemail]
    rfl
  · intro hall
    have hh : (fs.lookup "header").getD (.dict []) = PyVal.dict [] := by
      rw [hall "header" (by simp [sectionKeys])]
      rfl
    have hj : (fs.lookup "jobDetail").getD (.dict []) = PyVal.dict [] := by
      rw [hall "jobDetail" (by simp [sectionKeys])]
      rfl
    have hc : (fs.lookup "condition").getD (.dict []) = PyVal.dict [] := by
      rw [hall "condition" (by simp [sectionKeys])]
      rfl
    have hw : (fs.lookup "welfare").getD (.dict []) = PyVal.dict [] := by
      rw [hall "welfare" (by simp [sectionKeys])]
      rfl
    have hco : (fs.lookup "company").getD (.dict []) = PyVal.dict [] := by
      rw [hall "company" (by simp [sectionKeys])]
      rfl
    have hct : (fs.lookup "contact").getD (.dict []) = PyVal.dict [] := by
      rw [hall "contact" (by simp [sectionKeys])]
      rfl
    rw [extractInfo_eq job_id fs [] [] [] [] [] [] hh hj hc hw hco hct]
    rfl

theorem contact_phone_placeholder_when_absent_witness :
    sectionsOk [("x", PyVal.str "1")] = true ∧
    extractInfo "8863t" (.dict [("x", PyVal.str "1")]) = .ok
      ⟨"8863t", .none, .none, .none, .none, .none, .none, .none, .none, .none,
       .none, .none, .none, .none, .none, .none, .none, .str "未提供"⟩ :=
  ⟨rfl, (contact_phone_placeholder_when_absent "8863t" [("x", PyVal.str "1")] rfl).2
    (by
      intro k hk
      simp only [sectionKeys, List.mem_cons, List.not_mem_nil, or_false] at hk
      rcases hk with h | h | h | h | h | h <;> subst h <;> rfl)⟩

/-- The open payload whose `header` section is an explicit JSON null: the
`data` section is non-empty and not closed, yet `header` is `None`, so
`None.get('appearDate')` faults. -/
def nullHeaderPayload : PyVal := .dict [("data", .dict [("header", PyVal.none)])]

/-- C7 (counterexample): field extraction is not total on every decoded
payload with a non-empty open data section — when a nested section is
present but null (`{"data": {"header": null}}`), `.get('header', {})`
returns `None` (not the `{}` default, which applies only to a missing
key) and the chained `.get` raises `AttributeError`, which escapes
`fetch_104_data`. -/
theorem extraction_faults_on_null_section :
    fetch_104_data "https://www.104.com.tw/job/8863t"
      (fun _ => .response 200 (.decodable nullHeaderPayload)) =
      ([], .error .attributeError) ∧
    extractInfo "8863t" (.dict [("header", PyVal.none)]) = .error .attributeError :=
  ⟨rfl, rfl⟩

/-- C7 (amended): for every decoded payload whose accessed nested
sections are, when present, dicts, field extraction is total; a payload
missing an entire nested section (e.g. no `welfare` object) yields a
record in which the dependent field (`qualification_bonus`) is null
rather than a fault. -/
theorem extraction_total_on_dict_sections (job_id : String)
    (fs : List (String × PyVal)) (hsec : sectionsOk fs = true) :
    (extractInfo job_id (.dict fs)).isOk = true ∧
    (fs.lookup "welfare" = Option.none →
      ∀ r, extractInfo job_id (.dict fs) = .ok r → r.qualification_bonus = PyVal.none) := by
  obtain ⟨gh, hh⟩ := sectionsOk_dict fs hsec "header" (by simp [sectionKeys])
  obtain ⟨gj, hj⟩ := sectionsOk_dict fs hsec "jobDetail" (by simp [sectionKeys])
  obtain ⟨gc, hc⟩ := sectionsOk_dict fs hsec "condition" (by simp [sectionKeys])
  obtain ⟨gw, hw⟩ := sectionsOk_dict fs hsec "welfare" (by simp [sectionKeys])
  obtain ⟨gco, hco⟩ := sectionsOk_dict fs hsec "company" (by simp [sectionKeys])
  obtain ⟨gct, hct⟩ := sectionsOk_dict fs hsec "contact" (by simp [sectionKeys])
  have hex := extractInfo_eq job_id fs gh gj gc gw gco gct hh hj hc hw hco hct
  constructor
  · rw [hex]
    rfl
  · intro hwnone r hr
    have hgw : gw = [] := by
      rw [hwnone] at hw
      simp only [Option.getD_none, PyVal.dict.injEq] at hw
      exact hw.symm
    rw [hex] at hr
    injection hr with h2
    subst h2
    show (gw.lookup "welfare").getD PyVal.none = PyVal.none
    rw [hgw]
    rfl

theorem extraction_total_on_dict_sections_witness :
    sectionsOk [("x", PyVal.str "1")] = true ∧
    (extractInfo "8863t" (.dict [("x", PyVal.str "1")])).isOk = true :=
  ⟨rfl, (extraction_total_on_dict_sections "8863t" [("x", PyVal.str "1")] rfl).1⟩

/-- C10: `contact_phone` is sourced from the contact section's `email`
key: whenever the contact section is a dict binding `email` to some value
`v`, the extracted `contact_phone` equals `v` — in particular an explicit
null yields null, not the placeholder — and the placeholder `未提供`
arises exactly when the `email` key is missing from the (possibly
defaulted-empty) contact dict. -/
theorem contact_phone_from_email_key (job_id : String)
    (fs g : List (String × PyVal)) (hsec : sectionsOk fs = true)
    (hct : (fs.lookup "contact").getD (.dict []) = .dict g) :
    (∀ v, g.lookup "email" = some v →
       ∀ r, extractInfo job_id (.dict fs) = .ok r → r.contact_phone = v) ∧
    (g.lookup "email" = Option.none →
       ∀ r, extractInfo job_id (.dict fs) = .ok r → r.contact_phone = .str "未提供") := by
  obtain ⟨gh, hh⟩ := sectionsOk_dict fs hsec "header" (by simp [sectionKeys])
  obtain ⟨gj, hj⟩ := sectionsOk_dict fs hsec "jobDetail" (by simp [sectionKeys])
  obtain ⟨gc, hc⟩ := sectionsOk_dict fs hsec "condition" (by simp [sectionKeys])
  obtain ⟨gw, hw⟩ := sectionsOk_dict fs hsec "welfare" (by simp [sectionKeys])
  obtain ⟨gco, hco⟩ := sectionsOk_dict fs hsec "company" (by simp [sectionKeys])
  have hex := extractInfo_eq job_id fs gh gj gc gw gco g hh hj hc hw hco hct
  constructor
  · intro v hv r hr
    rw [hex] at hr
    injection hr with h2
    subst h2
    show (g.lookup "email").getD (.str "未提供") = v
    rw [hv]
    rfl
  · intro hnone r hr
    rw [hex] at hr
    injection hr with h2
    subst h2
    show (g.lookup "email").getD (.str "未提供") = .str "未提供"
    rw [hnone]
    rfl

/-- A payload whose contact section explicitly maps `email` to null. -/
def contactNullEmail : List (String × PyVal) :=
  [("contact", PyVal.dict [("email", PyVal.none)])]

theorem contact_phone_from_email_key_witness :
    sectionsOk contactNullEmail = true ∧
    extractInfo "8863t" (.dict contactNullEmail) =
      .ok ⟨"8863t", .none, .none, .none, .none, .none, .none, .none, .none, .none,
        .none, .none, .none, .none, .none, .none, .none, PyVal.none⟩ ∧
    (⟨"8863t", .none, .none, .none, .none, .none, .none, .none, .none, .none,
        .none, .none, .none, .none, .none, .none, .none, PyVal.none⟩ : JobRecord).contact_phone =
      PyVal.none :=
  ⟨rfl, rfl,
    (contact_phone_from_email_key "8863t" contactNullEmail [("email", PyVal.none)] rfl rfl).1
      PyVal.none rfl _ rfl⟩
